import Mathlib

/-!
Shallow embedding of the page-layout engine of `immich-book`
(`src/utils/pageLayout.ts`, current iteration) together with the
configuration-clamping logic of `src/components/PhotoGrid.tsx`.

JavaScript numbers are modelled as rationals (`ℚ`); every arithmetic
operation the embedded code performs (addition, subtraction,
multiplication, division by nonzero values, halving) is exact on the
values involved.  Optional values (`x?`, `undefined`) are modelled with
`Option`, and JavaScript truthiness on numbers (`0` and `undefined` are
falsy) is made explicit.  The external justified row packer
(`@immich/justified-layout-wasm`) is an abstract function parameter, as
in §4.3 of the specification.
-/

namespace ImmichBook

/-! ## Data model (`pageLayout.ts`) -/

/-- The slice of `AssetResponseDto.exifInfo` that `calculatePageLayout` reads. -/
structure ExifInfo where
  exifImageWidth : Option ℚ
  exifImageHeight : Option ℚ
  orientation : Option String
  deriving DecidableEq, Repr

/-- The slice of `AssetResponseDto` that `calculatePageLayout` reads. -/
structure Asset where
  id : String
  exifInfo : Option ExifInfo
  deriving DecidableEq, Repr

/-- `PhotoBox` from `pageLayout.ts`. -/
structure PhotoBox where
  asset : Asset
  x : ℚ
  y : ℚ
  width : ℚ
  height : ℚ
  deriving DecidableEq, Repr

/-- `PageAlignment` from `pageLayout.ts`. -/
inductive PageAlignment where
  | left
  | center
  | right
  deriving DecidableEq, Repr

/-- `Page` from `pageLayout.ts`. -/
structure Page where
  pageNumber : ℕ
  photos : List PhotoBox
  width : ℚ
  height : ℚ
  deriving DecidableEq, Repr

/-- The `pageSize` field of `LayoutOptions`. -/
inductive PageSizeOpt where
  | A4
  | LETTER
  | A3
  | CUSTOM
  deriving DecidableEq, Repr

/-- The `orientation` field of `LayoutOptions`. -/
inductive PageOrientation where
  | portrait
  | landscape
  deriving DecidableEq, Repr

/-- `mmToPixels` from `pageLayout.ts`: `Math.round(mm * 11.811023622047244)`. -/
def mmToPixels (mm : ℚ) : ℚ :=
  ((round (mm * (11.811023622047244 : ℚ)) : ℤ) : ℚ)

/-- An entry of the `PAGE_SIZES` table. -/
structure PageSizePreset where
  width : ℚ
  height : ℚ
  name : String
  deriving DecidableEq, Repr

/-- `PAGE_SIZES` from `pageLayout.ts` (only looked up at non-CUSTOM keys in the
source; the CUSTOM row is never consulted and is given the A4-portrait entry). -/
def PAGE_SIZES (ps : PageSizeOpt) (o : PageOrientation) : PageSizePreset :=
  match ps, o with
  | .A4, .portrait => ⟨mmToPixels 210, mmToPixels 297, "A4"⟩
  | .A4, .landscape => ⟨mmToPixels 297, mmToPixels 210, "A4"⟩
  | .LETTER, .portrait => ⟨mmToPixels (215.9 : ℚ), mmToPixels (279.4 : ℚ), "LETTER"⟩
  | .LETTER, .landscape => ⟨mmToPixels (279.4 : ℚ), mmToPixels (215.9 : ℚ), "LETTER"⟩
  | .A3, .portrait => ⟨mmToPixels 297, mmToPixels 420, "A3"⟩
  | .A3, .landscape => ⟨mmToPixels 420, mmToPixels 297, "A3"⟩
  | .CUSTOM, _ => ⟨mmToPixels 210, mmToPixels 297, "A4"⟩

/-- `LayoutOptions` from `pageLayout.ts`.  The two optional `Map`s are modelled
as association lists (JavaScript `Map` keys are unique; `get` returns the value
of the matching key or `undefined`). -/
structure LayoutOptions where
  pageSize : PageSizeOpt
  orientation : PageOrientation
  margin : ℚ
  rowHeight : ℚ
  spacing : ℚ
  customWidth : Option ℚ := none
  customHeight : Option ℚ := none
  combinePages : Bool := false
  customAspectRatios : Option (List (String × ℚ)) := none
  pageAlignments : Option (List (ℕ × PageAlignment)) := none

/-- JavaScript truthiness of an optional number: `undefined` and `0` are falsy. -/
def truthyNum : Option ℚ → Bool
  | some v => v != 0
  | none => false

/-- JavaScript `x || d` for an optional number `x`. -/
def numOr (x : Option ℚ) (d : ℚ) : ℚ :=
  match x with
  | some v => if v = 0 then d else v
  | none => d

/-- The `pageDimensions` selection at the top of `calculatePageLayout`:
`CUSTOM` with truthy `customWidth` and `customHeight` uses them, a preset name
uses the `PAGE_SIZES` table, and otherwise the code falls back to A4 portrait. -/
def pageDimensions (o : LayoutOptions) : ℚ × ℚ :=
  if o.pageSize = PageSizeOpt.CUSTOM ∧ truthyNum o.customWidth ∧ truthyNum o.customHeight then
    (o.customWidth.getD 0, o.customHeight.getD 0)
  else if o.pageSize ≠ PageSizeOpt.CUSTOM then
    ((PAGE_SIZES o.pageSize o.orientation).width, (PAGE_SIZES o.pageSize o.orientation).height)
  else
    ((PAGE_SIZES PageSizeOpt.A4 PageOrientation.portrait).width,
      (PAGE_SIZES PageSizeOpt.A4 PageOrientation.portrait).height)

/-- The natural-aspect-ratio fallback inside the `assets.map` of
`calculatePageLayout`: `width = exifImageWidth || 1`,
`height = exifImageHeight || 1`, swapped when `orientation == "6"`. -/
def naturalAspectRatio (asset : Asset) : ℚ :=
  let width := numOr (asset.exifInfo.bind ExifInfo.exifImageWidth) 1
  let height := numOr (asset.exifInfo.bind ExifInfo.exifImageHeight) 1
  if asset.exifInfo.bind ExifInfo.orientation = some "6" then height / width
  else width / height

/-- The per-asset body of the `assets.map` building `aspectRatios`:
`customAspectRatios?.get(asset.id)` is used when truthy, otherwise the natural
rotation-corrected ratio. -/
def resolveAspectRatio (customAspectRatios : Option (List (String × ℚ))) (asset : Asset) : ℚ :=
  match customAspectRatios.bind (fun m => m.lookup asset.id) with
  | some customRatio => if customRatio = 0 then naturalAspectRatio asset else customRatio
  | none => naturalAspectRatio asset

/-- The `aspectRatios` array passed to the row packer. -/
def aspectRatios (o : LayoutOptions) (assets : List Asset) : List ℚ :=
  assets.map (resolveAspectRatio o.customAspectRatios)

/-- A box returned by the row packer (`justifiedLayout.getPosition(i)`). -/
structure LayoutBox where
  top : ℚ
  left : ℚ
  width : ℚ
  height : ℚ
  deriving DecidableEq, Repr

/-- The options object handed to `new JustifiedLayout(...)`. -/
structure PackerOptions where
  rowHeight : ℚ
  rowWidth : ℚ
  spacing : ℚ
  heightTolerance : ℚ
  deriving DecidableEq, Repr

/-- The external justified row packer (`@immich/justified-layout-wasm`), kept
abstract as in §4.3 of the spec: given the aspect ratios and packing options it
yields the packed box of each index. -/
def Packer : Type :=
  List ℚ → PackerOptions → ℕ → LayoutBox

/-! ## Pagination (`calculatePageLayout`, main loop) -/

/-- One iteration of the pagination `for` loop of `calculatePageLayout`: if the
current page is non-empty and the packed bottom of the next box exceeds
`currentPageY + contentHeight`, close the current page and start a new one at
the box's packed top; then append the box (re-based by `currentPageY` and the
margin) to the current page. -/
def pageStep (pdW pdH contentHeight margin : ℚ)
    (st : List Page × Page × ℚ) (item : Asset × LayoutBox) : List Page × Page × ℚ :=
  let pages := st.1
  let currentPage := st.2.1
  let currentPageY := st.2.2
  let box := item.2
  let photoBottom := box.top + box.height
  let next : List Page × Page × ℚ :=
    if 0 < currentPage.photos.length ∧ contentHeight < photoBottom - currentPageY then
      let newPages := pages ++ [currentPage]
      (newPages,
        { pageNumber := newPages.length + 1, photos := [], width := pdW, height := pdH },
        box.top)
    else
      (pages, currentPage, currentPageY)
  (next.1,
    { next.2.1 with
      photos := next.2.1.photos ++
        [{ asset := item.1, x := box.left + margin, y := box.top - next.2.2 + margin,
           width := box.width, height := box.height }] },
    next.2.2)

/-- The pagination loop of `calculatePageLayout`: fold `pageStep` over the
(asset, packed box) pairs and append the final in-progress page if non-empty. -/
def paginate (pdW pdH contentHeight margin : ℚ) (items : List (Asset × LayoutBox)) : List Page :=
  let init : List Page × Page × ℚ :=
    ([], { pageNumber := 1, photos := [], width := pdW, height := pdH }, 0)
  let final := items.foldl (pageStep pdW pdH contentHeight margin) init
  if 0 < final.2.1.photos.length then final.1 ++ [final.2.1] else final.1

/-- Instrumented variant of `pageStep` that additionally remembers, for every
closed page, the packed-space y (`currentPageY`) at which that page started.
Identical to `pageStep` up to the extra ghost component. -/
def pageStepAux (pdW pdH contentHeight margin : ℚ)
    (st : List (Page × ℚ) × Page × ℚ) (item : Asset × LayoutBox) :
    List (Page × ℚ) × Page × ℚ :=
  let pages := st.1
  let currentPage := st.2.1
  let currentPageY := st.2.2
  let box := item.2
  let photoBottom := box.top + box.height
  let next : List (Page × ℚ) × Page × ℚ :=
    if 0 < currentPage.photos.length ∧ contentHeight < photoBottom - currentPageY then
      let newPages := pages ++ [(currentPage, currentPageY)]
      (newPages,
        { pageNumber := newPages.length + 1, photos := [], width := pdW, height := pdH },
        box.top)
    else
      (pages, currentPage, currentPageY)
  (next.1,
    { next.2.1 with
      photos := next.2.1.photos ++
        [{ asset := item.1, x := box.left + margin, y := box.top - next.2.2 + margin,
           width := box.width, height := box.height }] },
    next.2.2)

/-- Instrumented pagination: pages paired with their packed-space start. -/
def paginateAux (pdW pdH contentHeight margin : ℚ)
    (items : List (Asset × LayoutBox)) : List (Page × ℚ) :=
  let init : List (Page × ℚ) × Page × ℚ :=
    ([], { pageNumber := 1, photos := [], width := pdW, height := pdH }, 0)
  let final := items.foldl (pageStepAux pdW pdH contentHeight margin) init
  if 0 < final.2.1.photos.length then final.1 ++ [(final.2.1, final.2.2)] else final.1

/-! ## Alignment pass -/

/-- `Math.min` over a non-empty argument list, first argument split off. -/
def listMinQ (a : ℚ) (l : List ℚ) : ℚ := l.foldl min a

/-- `Math.max` over a non-empty argument list, first argument split off. -/
def listMaxQ (a : ℚ) (l : List ℚ) : ℚ := l.foldl max a

/-- The per-page body of the alignment pass of `calculatePageLayout`: for a
non-empty page whose configured alignment (defaulting to `left`) is not `left`,
shift every photo by the common offset computed from the extreme edges. -/
def alignPage (margin contentWidth : ℚ) (als : List (ℕ × PageAlignment)) (page : Page) : Page :=
  let alignment := (als.lookup page.pageNumber).getD PageAlignment.left
  match page.photos with
  | [] => page
  | p :: ps =>
    if alignment = PageAlignment.left then page
    else
      let minLeftEdge := listMinQ p.x (ps.map PhotoBox.x)
      let maxRightEdge := listMaxQ (p.x + p.width) (ps.map (fun q => q.x + q.width))
      let shift :=
        if alignment = PageAlignment.right then
          (margin + contentWidth) - maxRightEdge
        else if alignment = PageAlignment.center then
          let usedWidth := maxRightEdge - minLeftEdge
          let availableSpace := contentWidth - usedWidth
          (margin + availableSpace / 2) - minLeftEdge
        else 0
      { page with photos := page.photos.map (fun q => { q with x := q.x + shift }) }

/-- The alignment pass: skipped entirely when `pageAlignments` is absent,
otherwise applied to every page. -/
def alignStage (margin contentWidth : ℚ) (pageAlignments : Option (List (ℕ × PageAlignment)))
    (pages : List Page) : List Page :=
  match pageAlignments with
  | none => pages
  | some als => pages.map (alignPage margin contentWidth als)

/-! ## Spread combination -/

/-- The pairwise page-combination loop of `calculatePageLayout`; `k` is the
spread number assigned to the next emitted spread (`Math.floor(i / 2) + 1`). -/
def combinePairs (pdW pdH : ℚ) : ℕ → List Page → List Page
  | _, [] => []
  | k, [leftPage] => [{ leftPage with pageNumber := k, width := pdW * 2 }]
  | k, leftPage :: rightPage :: rest =>
    { pageNumber := k,
      photos := leftPage.photos ++
        rightPage.photos.map (fun photo => { photo with x := photo.x + pdW }),
      width := pdW * 2,
      height := pdH } :: combinePairs pdW pdH (k + 1) rest

/-- The `if (options.combinePages)` wrapper around `combinePairs`. -/
def combineStage (combinePages : Bool) (pdW pdH : ℚ) (pages : List Page) : List Page :=
  if combinePages then combinePairs pdW pdH 1 pages else pages

/-! ## The full pipeline -/

/-- The (asset, packed box) pairs the pagination loop iterates over:
`justifiedLayout.getPosition(i)` zipped with `assets[i]`. -/
def layoutItems (packer : Packer) (assets : List Asset) (o : LayoutOptions) :
    List (Asset × LayoutBox) :=
  let pd := pageDimensions o
  let contentWidth := pd.1 - o.margin * 2
  let positions := packer (aspectRatios o assets)
    { rowHeight := o.rowHeight, rowWidth := contentWidth, spacing := o.spacing,
      heightTolerance := 0 }
  assets.enum.map (fun p => (p.2, positions p.1))

/-- The pages of `calculatePageLayout` after pagination and before the
alignment pass and spread combination. -/
def prePages (packer : Packer) (assets : List Asset) (o : LayoutOptions) : List Page :=
  let pd := pageDimensions o
  paginate pd.1 pd.2 (pd.2 - o.margin * 2) o.margin (layoutItems packer assets o)

/-- The pages of `calculatePageLayout` after the alignment pass and before
spread combination. -/
def alignedPages (packer : Packer) (assets : List Asset) (o : LayoutOptions) : List Page :=
  let pd := pageDimensions o
  alignStage o.margin (pd.1 - o.margin * 2) o.pageAlignments (prePages packer assets o)

/-- `calculatePageLayout` from `pageLayout.ts`, parameterised by the external
row packer. -/
def calculatePageLayout (packer : Packer) (assets : List Asset) (o : LayoutOptions) :
    List Page :=
  if assets.length = 0 then []
  else
    let pd := pageDimensions o
    combineStage o.combinePages pd.1 pd.2 (alignedPages packer assets o)

/-! ## PhotoGrid configuration clamping (`src/components/PhotoGrid.tsx`) -/

/-- The five user-editable numeric settings validated and clamped by
`PhotoGrid` (page width/height, margin, row height, spacing — the component's
other state is irrelevant to clamping and persistence of these values). -/
structure GridSettings where
  pageWidth : ℚ
  pageHeight : ℚ
  margin : ℚ
  rowHeight : ℚ
  spacing : ℚ
  deriving DecidableEq, Repr

/-- `isPageWidthValid` from `PhotoGrid`. -/
abbrev isPageWidthValid (s : GridSettings) : Prop :=
  1000 ≤ s.pageWidth ∧ s.pageWidth ≤ 10000

/-- `isPageHeightValid` from `PhotoGrid`. -/
abbrev isPageHeightValid (s : GridSettings) : Prop :=
  1000 ≤ s.pageHeight ∧ s.pageHeight ≤ 10000

/-- `isMarginValid` from `PhotoGrid` (bounded by half the raw page width). -/
abbrev isMarginValid (s : GridSettings) : Prop :=
  0 ≤ s.margin ∧ s.margin ≤ s.pageWidth / 2

/-- `isRowHeightValid` from `PhotoGrid` (bounded by the raw page height). -/
abbrev isRowHeightValid (s : GridSettings) : Prop :=
  300 ≤ s.rowHeight ∧ s.rowHeight ≤ s.pageHeight

/-- `isSpacingValid` from `PhotoGrid`. -/
abbrev isSpacingValid (s : GridSettings) : Prop :=
  0 ≤ s.spacing ∧ s.spacing ≤ 100

/-- `validPageWidth`: the raw value when valid, else clamped to [1000, 10000]. -/
def validPageWidth (s : GridSettings) : ℚ :=
  if isPageWidthValid s then s.pageWidth else max 1000 (min 10000 s.pageWidth)

/-- `validPageHeight`: the raw value when valid, else clamped to [1000, 10000]. -/
def validPageHeight (s : GridSettings) : ℚ :=
  if isPageHeightValid s then s.pageHeight else max 1000 (min 10000 s.pageHeight)

/-- `validMargin`: the raw value when valid, else clamped to
[0, validPageWidth / 2]. -/
def validMargin (s : GridSettings) : ℚ :=
  if isMarginValid s then s.margin else max 0 (min (validPageWidth s / 2) s.margin)

/-- `validRowHeight`: the raw value when valid, else clamped to
[300, validPageHeight]. -/
def validRowHeight (s : GridSettings) : ℚ :=
  if isRowHeightValid s then s.rowHeight else max 300 (min (validPageHeight s) s.rowHeight)

/-- `validSpacing`: the raw value when valid, else clamped to [0, 100]. -/
def validSpacing (s : GridSettings) : ℚ :=
  if isSpacingValid s then s.spacing else max 0 (min 100 s.spacing)

/-- The `LayoutOptions` PhotoGrid hands to `calculatePageLayout`: always
CUSTOM/portrait, with the clamped (`valid*`) values. -/
def gridLayoutOptions (s : GridSettings) (combinePages : Bool)
    (ratios : List (String × ℚ)) : LayoutOptions :=
  { pageSize := PageSizeOpt.CUSTOM, orientation := PageOrientation.portrait,
    margin := validMargin s, rowHeight := validRowHeight s,
    spacing := validSpacing s,
    customWidth := some (validPageWidth s), customHeight := some (validPageHeight s),
    combinePages := combinePages, customAspectRatios := some ratios,
    pageAlignments := none }

/-- The save-config effect of PhotoGrid: it returns early (persisting nothing)
unless every numeric setting is valid, and then stores the raw values. -/
def savedAlbumConfig (s : GridSettings) : Option GridSettings :=
  if isPageWidthValid s ∧ isPageHeightValid s ∧ isMarginValid s ∧
      isRowHeightValid s ∧ isSpacingValid s then some s else none

/-! ## Measurement helpers (used only to state properties) -/

/-- The assets of all photo boxes across a page list, in order. -/
def pagesAssets (pgs : List Page) : List Asset :=
  (pgs.map (fun pg => pg.photos.map PhotoBox.asset)).flatten

/-- Minimum left edge of a page's photos (`Math.min(...photos.map(p => p.x))`);
`0` for an empty page. -/
def pageMinLeft (page : Page) : ℚ :=
  match page.photos with
  | [] => 0
  | p :: ps => listMinQ p.x (ps.map PhotoBox.x)

/-- Maximum right edge of a page's photos
(`Math.max(...photos.map(p => p.x + p.width))`); `0` for an empty page. -/
def pageMaxRight (page : Page) : ℚ :=
  match page.photos with
  | [] => 0
  | p :: ps => listMaxQ (p.x + p.width) (ps.map (fun q => q.x + q.width))

/-- The relation between a page (with its packed-space start) and the page
that follows it: the later page's first box sits at `y = margin`, and its
packed bottom measured from the earlier page's start strictly exceeds the
content height. -/
def breakRel (contentHeight margin : ℚ) (p q : Page × ℚ) : Prop :=
  ∀ b ∈ q.1.photos.head?, b.y = margin ∧ contentHeight < q.2 + b.height - p.2

/-- The row-packer output constraints used by claim C3, extended with the
height bound: the box sits at nonnegative coordinates, fits the row width,
and is no taller than the content height. -/
def boxOK (contentWidth contentHeight : ℚ) (b : LayoutBox) : Prop :=
  0 ≤ b.top ∧ 0 ≤ b.left ∧ b.left + b.width ≤ contentWidth ∧ b.height ≤ contentHeight

/-! ## Lemmas: asset conservation through the pipeline -/

lemma pageStep_assets (pdW pdH cH m : ℚ) (st : List Page × Page × ℚ)
    (it : Asset × LayoutBox) :
    pagesAssets (pageStep pdW pdH cH m st it).1 ++
      ((pageStep pdW pdH cH m st it).2.1.photos.map PhotoBox.asset) =
    (pagesAssets st.1 ++ st.2.1.photos.map PhotoBox.asset) ++ [it.1] := by
  unfold pageStep
  by_cases hbr : 0 < st.2.1.photos.length ∧ cH < it.2.top + it.2.height - st.2.2
  · simp [hbr, pagesAssets]
  · simp [hbr, pagesAssets]

lemma foldl_pageStep_assets (pdW pdH cH m : ℚ) (items : List (Asset × LayoutBox)) :
    ∀ st : List Page × Page × ℚ,
      pagesAssets (items.foldl (pageStep pdW pdH cH m) st).1 ++
        ((items.foldl (pageStep pdW pdH cH m) st).2.1.photos.map PhotoBox.asset) =
      (pagesAssets st.1 ++ st.2.1.photos.map PhotoBox.asset) ++ items.map Prod.fst := by
  induction items with
  | nil => intro st; simp
  | cons it rest ih =>
    intro st
    rw [List.foldl_cons, ih (pageStep pdW pdH cH m st it), pageStep_assets]
    simp

lemma paginate_assets (pdW pdH cH m : ℚ) (items : List (Asset × LayoutBox)) :
    pagesAssets (paginate pdW pdH cH m items) = items.map Prod.fst := by
  unfold paginate
  have h := foldl_pageStep_assets pdW pdH cH m items
    ([], { pageNumber := 1, photos := [], width := pdW, height := pdH }, 0)
  simp only [pagesAssets, List.map_nil, List.flatten_nil, List.nil_append] at h
  dsimp only
  split
  · rename_i hpos
    simpa [pagesAssets] using h
  · rename_i hpos
    have hnil : (List.foldl (pageStep pdW pdH cH m)
        ([], { pageNumber := 1, photos := [], width := pdW, height := pdH }, 0)
        items).2.1.photos = [] := by
      rcases List.eq_nil_or_concat
        ((List.foldl (pageStep pdW pdH cH m)
          ([], { pageNumber := 1, photos := [], width := pdW, height := pdH }, 0)
          items).2.1.photos) with hn | ⟨l, a, hc⟩
      · exact hn
      · exfalso; apply hpos; rw [hc]; simp
    rw [hnil] at h
    simpa [pagesAssets] using h

lemma alignPage_assets (m cW : ℚ) (als : List (ℕ × PageAlignment)) (pg : Page) :
    (alignPage m cW als pg).photos.map PhotoBox.asset = pg.photos.map PhotoBox.asset := by
  unfold alignPage
  split
  · rfl
  · dsimp only
    split
    · rfl
    · simp [List.map_map, Function.comp]

lemma alignStage_assets (m cW : ℚ) (pal : Option (List (ℕ × PageAlignment)))
    (pgs : List Page) :
    pagesAssets (alignStage m cW pal pgs) = pagesAssets pgs := by
  cases pal with
  | none => rfl
  | some als =>
    induction pgs with
    | nil => rfl
    | cons pg rest ih =>
      simp only [alignStage, pagesAssets, List.map_cons, List.flatten_cons] at ih ⊢
      rw [alignPage_assets, ih]

lemma combinePairs_assets (pdW pdH : ℚ) :
    ∀ (k : ℕ) (pgs : List Page), pagesAssets (combinePairs pdW pdH k pgs) = pagesAssets pgs
  | _, [] => by simp [combinePairs, pagesAssets]
  | k, [l] => by simp [combinePairs, pagesAssets]
  | k, l :: r :: rest => by
    have ih := combinePairs_assets pdW pdH (k + 1) rest
    simp only [combinePairs, pagesAssets, List.map_cons, List.flatten_cons] at ih ⊢
    rw [ih]
    simp [List.map_map, Function.comp]

lemma combineStage_assets (b : Bool) (pdW pdH : ℚ) (pgs : List Page) :
    pagesAssets (combineStage b pdW pdH pgs) = pagesAssets pgs := by
  cases b with
  | false => rfl
  | true => simpa [combineStage] using combinePairs_assets pdW pdH 1 pgs

lemma layoutItems_fst (packer : Packer) (assets : List Asset) (o : LayoutOptions) :
    (layoutItems packer assets o).map Prod.fst = assets := by
  unfold layoutItems
  rw [List.map_map]
  exact List.enum_map_snd assets

lemma calculatePageLayout_assets (packer : Packer) (assets : List Asset)
    (o : LayoutOptions) (h : assets ≠ []) :
    pagesAssets (calculatePageLayout packer assets o) = assets := by
  unfold calculatePageLayout
  rw [if_neg (by simpa using h)]
  dsimp only
  rw [combineStage_assets]
  unfold alignedPages
  dsimp only
  rw [alignStage_assets]
  unfold prePages
  dsimp only
  rw [paginate_assets, layoutItems_fst]

/-! ## Lemmas: page-break structure (instrumented pagination) -/

lemma pageStep_proj (pdW pdH cH m : ℚ) (stA : List (Page × ℚ) × Page × ℚ)
    (it : Asset × LayoutBox) :
    pageStep pdW pdH cH m (stA.1.map Prod.fst, stA.2) it =
      ((pageStepAux pdW pdH cH m stA it).1.map Prod.fst,
        (pageStepAux pdW pdH cH m stA it).2) := by
  unfold pageStep pageStepAux
  by_cases hbr : 0 < stA.2.1.photos.length ∧ cH < it.2.top + it.2.height - stA.2.2
  · simp [hbr]
  · simp [hbr]

lemma foldl_pageStep_proj (pdW pdH cH m : ℚ) (items : List (Asset × LayoutBox)) :
    ∀ stA : List (Page × ℚ) × Page × ℚ,
      items.foldl (pageStep pdW pdH cH m) (stA.1.map Prod.fst, stA.2) =
        ((items.foldl (pageStepAux pdW pdH cH m) stA).1.map Prod.fst,
          (items.foldl (pageStepAux pdW pdH cH m) stA).2) := by
  induction items with
  | nil => intro stA; rfl
  | cons it rest ih =>
    intro stA
    rw [List.foldl_cons, List.foldl_cons, pageStep_proj, ih]

lemma paginate_eq_paginateAux (pdW pdH cH m : ℚ) (items : List (Asset × LayoutBox)) :
    paginate pdW pdH cH m items = (paginateAux pdW pdH cH m items).map Prod.fst := by
  unfold paginate paginateAux
  dsimp only
  have h := foldl_pageStep_proj pdW pdH cH m items
    ([], { pageNumber := 1, photos := [], width := pdW, height := pdH }, 0)
  simp only [List.map_nil] at h
  rw [h]
  by_cases hc : 0 <
      ((items.foldl (pageStepAux pdW pdH cH m)
        ([], { pageNumber := 1, photos := [], width := pdW, height := pdH },
          0)).2.1.photos.length)
  · simp [hc]
  · simp [hc]

lemma chain'_append_singleton {α : Type} (R : α → α → Prop) (l : List α) (x : α) :
    List.Chain' R (l ++ [x]) ↔ List.Chain' R l ∧ ∀ y ∈ l.getLast?, R y x := by
  simp [List.chain'_append]

/-- The invariant maintained by the instrumented pagination fold: all closed
pages are non-empty, the current page is non-empty as soon as a page has been
closed, and consecutive (page, packed start) pairs satisfy `breakRel`. -/
def auxInv (cH m : ℚ) (st : List (Page × ℚ) × Page × ℚ) : Prop :=
  (∀ pg ∈ st.1, pg.1.photos ≠ []) ∧
  (st.1 ≠ [] → st.2.1.photos ≠ []) ∧
  List.Chain' (breakRel cH m) (st.1 ++ [(st.2.1, st.2.2)])

lemma pageStepAux_inv (pdW pdH cH m : ℚ) (st : List (Page × ℚ) × Page × ℚ)
    (it : Asset × LayoutBox) (h : auxInv cH m st) :
    auxInv cH m (pageStepAux pdW pdH cH m st it) := by
  obtain ⟨h1, h2, h3⟩ := h
  unfold pageStepAux
  dsimp only
  by_cases hbr : 0 < st.2.1.photos.length ∧ cH < it.2.top + it.2.height - st.2.2
  · rw [if_pos hbr]
    refine ⟨?_, ?_, ?_⟩
    · intro pg hpg
      rcases List.mem_append.mp hpg with hmem | hmem
      · exact h1 pg hmem
      · rcases List.mem_singleton.mp hmem with rfl
        exact List.length_pos.mp hbr.1
    · intro _
      simp
    · rw [List.append_assoc]
      rw [← List.append_assoc]
      rw [chain'_append_singleton]
      refine ⟨h3, ?_⟩
      intro y hy
      rw [List.getLast?_concat] at hy
      rcases Option.mem_some_iff.mp hy with rfl
      intro b hb
      simp only [List.nil_append, List.head?_cons, Option.mem_some_iff] at hb
      subst hb
      constructor
      · ring
      · simpa using hbr.2
  · rw [if_neg hbr]
    refine ⟨h1, ?_, ?_⟩
    · intro _
      simp
    · rw [chain'_append_singleton] at h3 ⊢
      refine ⟨h3.1, ?_⟩
      intro y hy
      have hrel := h3.2 y hy
      intro b hb
      apply hrel
      have hcur : st.2.1.photos ≠ [] := by
        apply h2
        intro hnil
        rw [hnil] at hy
        simp at hy
      rcases List.exists_cons_of_ne_nil hcur with ⟨p, ps, hps⟩
      rw [hps] at hb ⊢
      simpa using hb

lemma foldl_pageStepAux_inv (pdW pdH cH m : ℚ) (items : List (Asset × LayoutBox)) :
    ∀ st, auxInv cH m st → auxInv cH m (items.foldl (pageStepAux pdW pdH cH m) st) := by
  induction items with
  | nil => exact fun _ h => h
  | cons it rest ih =>
    intro st h
    exact ih _ (pageStepAux_inv pdW pdH cH m st it h)

lemma paginateAux_props (pdW pdH cH m : ℚ) (items : List (Asset × LayoutBox)) :
    (∀ pg ∈ paginateAux pdW pdH cH m items, pg.1.photos ≠ []) ∧
    List.Chain' (breakRel cH m) (paginateAux pdW pdH cH m items) := by
  have h := foldl_pageStepAux_inv pdW pdH cH m items
    ([], { pageNumber := 1, photos := [], width := pdW, height := pdH }, 0)
    ⟨by simp, by simp, by simp⟩
  obtain ⟨h1, _, h3⟩ := h
  unfold paginateAux
  dsimp only
  by_cases hc : 0 <
      ((items.foldl (pageStepAux pdW pdH cH m)
        ([], { pageNumber := 1, photos := [], width := pdW, height := pdH },
          0)).2.1.photos.length)
  · rw [if_pos hc]
    refine ⟨?_, h3⟩
    intro pg hpg
    rcases List.mem_append.mp hpg with hmem | hmem
    · exact h1 pg hmem
    · rcases List.mem_singleton.mp hmem with rfl
      exact List.length_pos.mp hc
  · rw [if_neg hc]
    exact ⟨h1, ((chain'_append_singleton _ _ _).mp h3).1⟩

lemma pageStep_pages_ne_iff (pdW pdH cH m : ℚ) (st : List Page × Page × ℚ)
    (it : Asset × LayoutBox) :
    (pageStep pdW pdH cH m st it).1 ≠ st.1 ↔
      (0 < st.2.1.photos.length ∧ cH < it.2.top + it.2.height - st.2.2) := by
  unfold pageStep
  dsimp only
  by_cases hbr : 0 < st.2.1.photos.length ∧ cH < it.2.top + it.2.height - st.2.2
  · rw [if_pos hbr]
    refine ⟨fun _ => hbr, fun _ heq => ?_⟩
    have hlen := congrArg List.length heq
    simp at hlen
  · rw [if_neg hbr]
    simp [hbr]

/-! ## Lemmas: photo boxes stay inside the content area -/

/-- A photo box lies within the content area of a page with content width
`cW`, content height `cH` and margin `m` (both edges measured from the
page-relative origin). -/
def photoInBounds (cW cH m : ℚ) (b : PhotoBox) : Prop :=
  b.y + b.height ≤ cH + m ∧ b.x + b.width ≤ cW + m

lemma pageStep_bounded (pdW pdH cH cW m : ℚ) (st : List Page × Page × ℚ)
    (it : Asset × LayoutBox) (hit : boxOK cW cH it.2)
    (hne : st.2.1.photos ≠ [])
    (hpages : ∀ pg ∈ st.1, ∀ b ∈ pg.photos, photoInBounds cW cH m b)
    (hcur : ∀ b ∈ st.2.1.photos, photoInBounds cW cH m b) :
    (pageStep pdW pdH cH m st it).2.1.photos ≠ [] ∧
    (∀ pg ∈ (pageStep pdW pdH cH m st it).1, ∀ b ∈ pg.photos, photoInBounds cW cH m b) ∧
    (∀ b ∈ (pageStep pdW pdH cH m st it).2.1.photos, photoInBounds cW cH m b) := by
  obtain ⟨htop, hleft, hwidth, hheight⟩ := hit
  unfold pageStep
  dsimp only
  by_cases hbr : 0 < st.2.1.photos.length ∧ cH < it.2.top + it.2.height - st.2.2
  · rw [if_pos hbr]
    refine ⟨by simp, ?_, ?_⟩
    · intro pg hpg
      rcases List.mem_append.mp hpg with hm | hm
      · exact hpages pg hm
      · rcases List.mem_singleton.mp hm with rfl
        exact hcur
    · intro b hb
      simp only [List.nil_append, List.mem_singleton] at hb
      subst hb
      exact ⟨by dsimp only; linarith, by dsimp only; linarith⟩
  · rw [if_neg hbr]
    push_neg at hbr
    have hfits : it.2.top + it.2.height - st.2.2 ≤ cH :=
      hbr (List.length_pos.mpr hne)
    refine ⟨by simp, hpages, ?_⟩
    intro b hb
    rcases List.mem_append.mp hb with hm | hm
    · exact hcur b hm
    · rcases List.mem_singleton.mp hm with rfl
      exact ⟨by dsimp only; linarith, by dsimp only; linarith⟩

lemma foldl_pageStep_bounded (pdW pdH cH cW m : ℚ) :
    ∀ (items : List (Asset × LayoutBox)) (st : List Page × Page × ℚ),
      (∀ it ∈ items, boxOK cW cH it.2) →
      st.2.1.photos ≠ [] →
      (∀ pg ∈ st.1, ∀ b ∈ pg.photos, photoInBounds cW cH m b) →
      (∀ b ∈ st.2.1.photos, photoInBounds cW cH m b) →
      ((∀ pg ∈ (items.foldl (pageStep pdW pdH cH m) st).1, ∀ b ∈ pg.photos,
          photoInBounds cW cH m b) ∧
        (∀ b ∈ (items.foldl (pageStep pdW pdH cH m) st).2.1.photos,
          photoInBounds cW cH m b)) := by
  intro items
  induction items with
  | nil => intro st _ _ hpages hcur; exact ⟨hpages, hcur⟩
  | cons it rest ih =>
    intro st hitems hne hpages hcur
    rw [List.foldl_cons]
    have hstep := pageStep_bounded pdW pdH cH cW m st it (hitems it (by simp)) hne hpages hcur
    exact ih (pageStep pdW pdH cH m st it)
      (fun x hx => hitems x (by simp [hx])) hstep.1 hstep.2.1 hstep.2.2

lemma paginate_bounded (pdW pdH cH cW m : ℚ) (items : List (Asset × LayoutBox))
    (hfirst : ∀ it ∈ items.head?, it.2.top = 0)
    (hb : ∀ it ∈ items, boxOK cW cH it.2) :
    ∀ pg ∈ paginate pdW pdH cH m items, ∀ b ∈ pg.photos, photoInBounds cW cH m b := by
  cases items with
  | nil => simp [paginate]
  | cons it0 rest =>
    intro pg hpg b hbmem
    have htop0 : it0.2.top = 0 := hfirst it0 (by simp)
    have hit0 := hb it0 (by simp)
    obtain ⟨_, hleft0, hwidth0, hheight0⟩ := hit0
    unfold paginate at hpg
    dsimp only at hpg
    rw [List.foldl_cons] at hpg
    have hstep : pageStep pdW pdH cH m
        ([], { pageNumber := 1, photos := [], width := pdW, height := pdH }, 0) it0 =
        ([], { pageNumber := 1,
               photos := [{ asset := it0.1, x := it0.2.left + m, y := it0.2.top - 0 + m,
                            width := it0.2.width, height := it0.2.height }],
               width := pdW, height := pdH }, 0) := by
      simp [pageStep]
    rw [hstep] at hpg
    have hinv := foldl_pageStep_bounded pdW pdH cH cW m rest
      ([], { pageNumber := 1,
             photos := [{ asset := it0.1, x := it0.2.left + m, y := it0.2.top - 0 + m,
                          width := it0.2.width, height := it0.2.height }],
             width := pdW, height := pdH }, 0)
      (fun x hx => hb x (by simp [hx])) (by simp) (by simp)
      (by
        intro b hb0
        simp only [List.mem_singleton] at hb0
        subst hb0
        exact ⟨by dsimp only; linarith, by dsimp only; linarith⟩)
    by_cases hc : 0 < (rest.foldl (pageStep pdW pdH cH m)
        ([], { pageNumber := 1,
               photos := [{ asset := it0.1, x := it0.2.left + m, y := it0.2.top - 0 + m,
                            width := it0.2.width, height := it0.2.height }],
               width := pdW, height := pdH }, 0)).2.1.photos.length
    · rw [if_pos hc] at hpg
      rcases List.mem_append.mp hpg with hm | hm
      · exact hinv.1 pg hm b hbmem
      · rcases List.mem_singleton.mp hm with rfl
        exact hinv.2 b hbmem
    · rw [if_neg hc] at hpg
      exact hinv.1 pg hpg b hbmem

/-! ## Lemmas: spread combination -/

lemma combinePairs_length (pdW pdH : ℚ) :
    ∀ (k : ℕ) (pgs : List Page),
      (combinePairs pdW pdH k pgs).length = (pgs.length + 1) / 2
  | _, [] => by simp [combinePairs]
  | _, [_] => by simp [combinePairs]
  | k, l :: r :: rest => by
    have ih := combinePairs_length pdW pdH (k + 1) rest
    simp only [combinePairs, List.length_cons] at ih ⊢
    omega

lemma combinePairs_getElem (pdW pdH : ℚ) :
    ∀ (k : ℕ) (pgs : List Page) (j : ℕ),
      (combinePairs pdW pdH k pgs)[j]? =
        match pgs[2 * j]?, pgs[2 * j + 1]? with
        | some L, some R => some { pageNumber := k + j,
                                   photos := L.photos ++ R.photos.map
                                     (fun (p : PhotoBox) => { p with x := p.x + pdW }),
                                   width := pdW * 2, height := pdH }
        | some L, none => some { L with pageNumber := k + j, width := pdW * 2 }
        | _, _ => none
  | _, [], j => by simp [combinePairs]
  | k, [l], 0 => by simp [combinePairs]
  | k, [l], j + 1 => by
    have h2 : 2 * (j + 1) = 2 * j + 1 + 1 := by ring
    simp [combinePairs, h2]
  | k, l :: r :: rest, 0 => by simp [combinePairs]
  | k, l :: r :: rest, j + 1 => by
    have ih := combinePairs_getElem pdW pdH (k + 1) rest j
    have h2 : 2 * (j + 1) = 2 * j + 1 + 1 := by ring
    have h3 : 2 * (j + 1) + 1 = 2 * j + 1 + 1 + 1 := by ring
    have hk : k + 1 + j = k + (j + 1) := by omega
    simp only [combinePairs, List.getElem?_cons_succ, h2, h3, hk] at ih ⊢
    exact ih

/-! ## Lemmas: alignment shifts -/

lemma listMinQ_shift (s : ℚ) (a : ℚ) (l : List ℚ) :
    listMinQ (a + s) (l.map (fun v => v + s)) = listMinQ a l + s := by
  induction l generalizing a with
  | nil => simp [listMinQ]
  | cons x xs ih =>
    simp only [listMinQ, List.map_cons, List.foldl_cons] at ih ⊢
    rw [min_add_add_right]
    exact ih (min a x)

lemma listMaxQ_shift (s : ℚ) (a : ℚ) (l : List ℚ) :
    listMaxQ (a + s) (l.map (fun v => v + s)) = listMaxQ a l + s := by
  induction l generalizing a with
  | nil => simp [listMaxQ]
  | cons x xs ih =>
    simp only [listMaxQ, List.map_cons, List.foldl_cons] at ih ⊢
    rw [max_add_add_right]
    exact ih (max a x)

lemma pageMinLeft_shift (pg : Page) (p : PhotoBox) (ps : List PhotoBox) (s : ℚ)
    (h : pg.photos = p :: ps) :
    pageMinLeft { pg with photos := pg.photos.map (fun q => { q with x := q.x + s }) } =
      pageMinLeft pg + s := by
  simp only [pageMinLeft, h, List.map_cons]
  have h1 : (ps.map (fun q => ({ q with x := q.x + s } : PhotoBox))).map PhotoBox.x
      = (ps.map PhotoBox.x).map (fun v => v + s) := by
    simp only [List.map_map]
    rfl
  rw [h1]
  exact listMinQ_shift s p.x (ps.map PhotoBox.x)

lemma pageMaxRight_shift (pg : Page) (p : PhotoBox) (ps : List PhotoBox) (s : ℚ)
    (h : pg.photos = p :: ps) :
    pageMaxRight { pg with photos := pg.photos.map (fun q => { q with x := q.x + s }) } =
      pageMaxRight pg + s := by
  simp only [pageMaxRight, h, List.map_cons]
  have h1 : (ps.map (fun q => ({ q with x := q.x + s } : PhotoBox))).map
        (fun q => q.x + q.width)
      = (ps.map (fun q => q.x + q.width)).map (fun v => v + s) := by
    simp only [List.map_map]
    apply List.map_congr_left
    intro q _
    simp only [Function.comp]
    ring
  rw [h1]
  have h2 : p.x + s + p.width = p.x + p.width + s := by ring
  rw [h2]
  exact listMaxQ_shift s (p.x + p.width) (ps.map (fun q => q.x + q.width))

/-! ## Lemmas: page dimensions through the pipeline -/

lemma pageStep_dims (pdW pdH cH m : ℚ) (st : List Page × Page × ℚ)
    (it : Asset × LayoutBox)
    (hpages : ∀ pg ∈ st.1, pg.width = pdW ∧ pg.height = pdH)
    (hcur : st.2.1.width = pdW ∧ st.2.1.height = pdH) :
    (∀ pg ∈ (pageStep pdW pdH cH m st it).1, pg.width = pdW ∧ pg.height = pdH) ∧
    ((pageStep pdW pdH cH m st it).2.1.width = pdW ∧
      (pageStep pdW pdH cH m st it).2.1.height = pdH) := by
  unfold pageStep
  dsimp only
  by_cases hbr : 0 < st.2.1.photos.length ∧ cH < it.2.top + it.2.height - st.2.2
  · rw [if_pos hbr]
    refine ⟨?_, by constructor <;> rfl⟩
    intro pg hpg
    rcases List.mem_append.mp hpg with hm | hm
    · exact hpages pg hm
    · rcases List.mem_singleton.mp hm with rfl
      exact hcur
  · rw [if_neg hbr]
    exact ⟨hpages, hcur⟩

lemma foldl_pageStep_dims (pdW pdH cH m : ℚ) :
    ∀ (items : List (Asset × LayoutBox)) (st : List Page × Page × ℚ),
      (∀ pg ∈ st.1, pg.width = pdW ∧ pg.height = pdH) →
      (st.2.1.width = pdW ∧ st.2.1.height = pdH) →
      ((∀ pg ∈ (items.foldl (pageStep pdW pdH cH m) st).1,
          pg.width = pdW ∧ pg.height = pdH) ∧
        ((items.foldl (pageStep pdW pdH cH m) st).2.1.width = pdW ∧
          (items.foldl (pageStep pdW pdH cH m) st).2.1.height = pdH)) := by
  intro items
  induction items with
  | nil => intro st hpages hcur; exact ⟨hpages, hcur⟩
  | cons it rest ih =>
    intro st hpages hcur
    rw [List.foldl_cons]
    have hstep := pageStep_dims pdW pdH cH m st it hpages hcur
    exact ih (pageStep pdW pdH cH m st it) hstep.1 hstep.2

lemma paginate_dims (pdW pdH cH m : ℚ) (items : List (Asset × LayoutBox)) :
    ∀ pg ∈ paginate pdW pdH cH m items, pg.width = pdW ∧ pg.height = pdH := by
  unfold paginate
  dsimp only
  have h := foldl_pageStep_dims pdW pdH cH m items
    ([], { pageNumber := 1, photos := [], width := pdW, height := pdH }, 0)
    (by simp) (by exact ⟨rfl, rfl⟩)
  intro pg hpg
  by_cases hc : 0 < ((items.foldl (pageStep pdW pdH cH m)
      ([], { pageNumber := 1, photos := [], width := pdW, height := pdH },
        0)).2.1.photos.length)
  · rw [if_pos hc] at hpg
    rcases List.mem_append.mp hpg with hm | hm
    · exact h.1 pg hm
    · rcases List.mem_singleton.mp hm with rfl
      exact h.2
  · rw [if_neg hc] at hpg
    exact h.1 pg hpg

lemma alignPage_dims (m cW : ℚ) (als : List (ℕ × PageAlignment)) (pg : Page) :
    (alignPage m cW als pg).width = pg.width ∧
    (alignPage m cW als pg).height = pg.height := by
  unfold alignPage
  split
  · exact ⟨rfl, rfl⟩
  · dsimp only
    split
    · exact ⟨rfl, rfl⟩
    · exact ⟨rfl, rfl⟩

lemma alignStage_dims (m cW : ℚ) (pal : Option (List (ℕ × PageAlignment)))
    (pgs : List Page) (w hh : ℚ)
    (h : ∀ pg ∈ pgs, pg.width = w ∧ pg.height = hh) :
    ∀ pg ∈ alignStage m cW pal pgs, pg.width = w ∧ pg.height = hh := by
  cases pal with
  | none => exact h
  | some als =>
    intro pg hpg
    rcases List.mem_map.mp hpg with ⟨pg0, hpg0, rfl⟩
    rw [(alignPage_dims m cW als pg0).1, (alignPage_dims m cW als pg0).2]
    exact h pg0 hpg0

/-! ## Concrete inputs used by witnesses and counterexamples -/

/-- A minimal asset with no EXIF data. -/
def assetBare : Asset := { id := "a0", exifInfo := none }

/-- An asset with 400×300 EXIF dimensions. -/
def assetWide : Asset :=
  { id := "w1",
    exifInfo := some { exifImageWidth := some 400, exifImageHeight := some 300,
                       orientation := none } }

/-- Two concrete assets. -/
def witAssets : List Asset := [assetWide, assetBare]

/-- A concrete packer: index `i` gets a 40×40 box at packed top `50 i`. -/
def witPacker : Packer := fun _ _ i => { top := (i : ℚ) * 50, left := 0, width := 40, height := 40 }

/-- A concrete configuration: 100×100 custom page, margin 10 (so an 80×80
content area), spreads enabled, page 1 centered. -/
def witOptions : LayoutOptions :=
  { pageSize := .CUSTOM, orientation := .portrait, margin := 10, rowHeight := 40,
    spacing := 0, customWidth := some 100, customHeight := some 100,
    combinePages := true, customAspectRatios := none,
    pageAlignments := some [(1, PageAlignment.center)] }

/-- A packer that returns one 10-wide box taller (81) than the 80-pixel
content height of `optsC3` — an "oversized row" the paginator never splits. -/
def tallPacker : Packer := fun _ _ _ => { top := 0, left := 0, width := 10, height := 81 }

/-- A packer whose single box (10×30 at the origin) respects the content area
of `optsC3`. -/
def goodPacker : Packer := fun _ _ _ => { top := 0, left := 0, width := 10, height := 30 }

/-- A 100×100 custom page with margin 10: content area 80×80. -/
def optsC3 : LayoutOptions :=
  { pageSize := .CUSTOM, orientation := .portrait, margin := 10, rowHeight := 30,
    spacing := 0, customWidth := some 100, customHeight := some 100 }

/-- Two concrete packed items whose second box cannot fit on the first page
(content height 80, packed bottoms 40 and 90). -/
def witItems : List (Asset × LayoutBox) :=
  [(assetWide, { top := 0, left := 0, width := 40, height := 40 }),
   (assetBare, { top := 50, left := 0, width := 40, height := 40 })]

/-- A concrete non-empty page used to witness the alignment properties:
two boxes spanning x ∈ [10, 60] on a 100-wide page. -/
def witAlignPage : Page :=
  { pageNumber := 1,
    photos := [{ asset := assetWide, x := 10, y := 10, width := 20, height := 30 },
               { asset := assetBare, x := 40, y := 10, width := 20, height := 30 }],
    width := 100, height := 100 }

/-- The first page produced by `paginateAux 100 100 80 10 witItems`, paired
with its packed start. -/
def witPageOne : Page × ℚ :=
  ({ pageNumber := 1,
     photos := [{ asset := assetWide, x := 10, y := 10, width := 40, height := 40 }],
     width := 100, height := 100 }, 0)

/-- The second page produced by `paginateAux 100 100 80 10 witItems`, paired
with its packed start. -/
def witPageTwo : Page × ℚ :=
  ({ pageNumber := 2,
     photos := [{ asset := assetBare, x := 10, y := 10, width := 40, height := 40 }],
     width := 100, height := 100 }, 50)

/-- Aspect-ratio resolution as claim C6 words it: the explicit per-asset
override is used whenever it is *present* in the map (compare
`resolveAspectRatio`, which tests the looked-up value for truthiness). -/
def resolveAspectRatioClaim (customAspectRatios : Option (List (String × ℚ)))
    (asset : Asset) : ℚ :=
  match customAspectRatios.bind (fun m => m.lookup asset.id) with
  | some customRatio => customRatio
  | none => naturalAspectRatio asset

/-- An asset with a 4:3 natural aspect ratio. -/
def assetFourThree : Asset :=
  { id := "a43",
    exifInfo := some { exifImageWidth := some 4, exifImageHeight := some 3,
                       orientation := none } }

/-- A CUSTOM page-size configuration whose `customWidth` is 0 while
`customHeight` is a plausible 500 — the fallback case of claim C10. -/
def optsC10 : LayoutOptions :=
  { pageSize := .CUSTOM, orientation := .landscape, margin := 10, rowHeight := 30,
    spacing := 0, customWidth := some 0, customHeight := some 500 }

/-- Grid settings whose page width (500) is below the 1000-pixel minimum while
every other value is in bounds. -/
def badSettings : GridSettings :=
  { pageWidth := 500, pageHeight := 2000, margin := 10, rowHeight := 400, spacing := 5 }

/-! ## Claim theorems -/

/-- C1: for every non-empty asset list and every configuration (spreads on or
off), the photo boxes of `calculatePageLayout`, flattened across all pages in
order, carry exactly the input assets — so their total count equals the input
count, with no asset dropped or duplicated. -/
theorem calculatePageLayout_conserves_assets (packer : Packer) (assets : List Asset)
    (o : LayoutOptions) (h : assets ≠ []) :
    pagesAssets (calculatePageLayout packer assets o) = assets ∧
    ((calculatePageLayout packer assets o).map (fun pg => pg.photos.length)).sum
      = assets.length := by
  have hmain := calculatePageLayout_assets packer assets o h
  refine ⟨hmain, ?_⟩
  have hlen := congrArg List.length hmain
  simpa [pagesAssets, List.length_flatten, List.map_map, Function.comp_def,
    List.length_map] using hlen

/-- Witness for C1 at a concrete two-asset input whose packing forces a page
break and whose configuration combines pages. -/
theorem calculatePageLayout_conserves_assets_witness :
    witAssets ≠ [] ∧
    pagesAssets (calculatePageLayout witPacker witAssets witOptions) = witAssets ∧
    ((calculatePageLayout witPacker witAssets witOptions).map
      (fun pg => pg.photos.length)).sum = witAssets.length := by
  have h := calculatePageLayout_conserves_assets witPacker witAssets witOptions
    (by simp [witAssets])
  exact ⟨by simp [witAssets], h.1, h.2⟩

/-- C8: an empty asset list yields an empty page list (no pages at all, and no
error), for every configuration. -/
theorem calculatePageLayout_empty_input (packer : Packer) (o : LayoutOptions) :
    calculatePageLayout packer [] o = [] := rfl

/-- C2: `pageStep` closes the current page exactly when the next box's packed
bottom (`top + height`) minus the current page's packed start exceeds the
content height and the current page already holds a box; consequently the
pagination loop (run here in its instrumented form, which the plain `paginate`
projects from) never emits an empty page, and each page after the first starts
with a box whose packed bottom measured from the previous page's packed start
strictly exceeds the content height. -/
theorem paginate_break_properties (pdW pdH cH m : ℚ) (items : List (Asset × LayoutBox)) :
    (∀ st it, (pageStep pdW pdH cH m st it).1 ≠ st.1 ↔
      (0 < st.2.1.photos.length ∧ cH < it.2.top + it.2.height - st.2.2)) ∧
    paginate pdW pdH cH m items = (paginateAux pdW pdH cH m items).map Prod.fst ∧
    (∀ pg ∈ paginateAux pdW pdH cH m items, pg.1.photos ≠ []) ∧
    List.Chain' (breakRel cH m) (paginateAux pdW pdH cH m items) :=
  ⟨fun st it => pageStep_pages_ne_iff pdW pdH cH m st it,
    paginate_eq_paginateAux pdW pdH cH m items,
    (paginateAux_props pdW pdH cH m items).1,
    (paginateAux_props pdW pdH cH m items).2⟩

/-- C4: combining `N` single pages yields `⌈N/2⌉` spreads: spread `j+1` (from
pages `2j+1` and `2j+2`) has width `2·pageWidth`, the left page's boxes
unchanged and the right page's boxes shifted right by exactly `pageWidth`; a
trailing odd page is emitted alone, also reporting double width, with its
boxes unshifted.  `calculatePageLayout` applies exactly this combination to
the aligned pages whenever `combinePages` is enabled. -/
theorem combinePairs_spread_spec (pdW pdH : ℚ) (pages : List Page) :
    (combinePairs pdW pdH 1 pages).length = (pages.length + 1) / 2 ∧
    (∀ j : ℕ, (combinePairs pdW pdH 1 pages)[j]? =
      match pages[2 * j]?, pages[2 * j + 1]? with
      | some L, some R => some { pageNumber := j + 1,
                                 photos := L.photos ++ R.photos.map
                                   (fun (p : PhotoBox) => { p with x := p.x + pdW }),
                                 width := pdW * 2, height := pdH }
      | some L, none => some { L with pageNumber := j + 1, width := pdW * 2 }
      | _, _ => none) ∧
    (∀ (packer : Packer) (assets : List Asset) (o : LayoutOptions),
      o.combinePages = true → assets ≠ [] →
      calculatePageLayout packer assets o =
        combinePairs (pageDimensions o).1 (pageDimensions o).2 1
          (alignedPages packer assets o)) := by
  refine ⟨combinePairs_length pdW pdH 1 pages, ?_, ?_⟩
  · intro j
    have h := combinePairs_getElem pdW pdH 1 pages j
    rw [Nat.add_comm 1 j] at h
    exact h
  · intro packer assets o hcp hne
    unfold calculatePageLayout
    rw [if_neg (by simpa using hne)]
    dsimp only
    unfold combineStage
    rw [hcp]
    simp

/-- Witness for C4: at the concrete two-asset, combine-enabled input the full
pipeline output is the pairwise combination of the aligned pages. -/
theorem combinePairs_spread_spec_witness :
    calculatePageLayout witPacker witAssets witOptions =
      combinePairs (pageDimensions witOptions).1 (pageDimensions witOptions).2 1
        (alignedPages witPacker witAssets witOptions) :=
  (combinePairs_spread_spec (pageDimensions witOptions).1
    (pageDimensions witOptions).2 []).2.2
    witPacker witAssets witOptions rfl (by simp [witAssets])

/-- C5: for a page with at least one box, alignment `left` (also the default
when the page has no entry in the map) leaves the page unchanged; `right`
shifts all boxes by one common offset so the maximum right edge equals
`margin + contentWidth`; `center` makes the left slack
(`min x − margin`) exactly equal to the right slack
(`margin + contentWidth − max right edge`), hence equal within 1px; and the
alignment stage of `calculatePageLayout` runs after pagination and before
spread combination. -/
theorem alignPage_alignment_spec (m cW : ℚ) (als : List (ℕ × PageAlignment))
    (pg : Page) (hne : pg.photos ≠ []) :
    ((als.lookup pg.pageNumber).getD PageAlignment.left = PageAlignment.left →
      alignPage m cW als pg = pg) ∧
    ((als.lookup pg.pageNumber).getD PageAlignment.left = PageAlignment.right →
      pageMaxRight (alignPage m cW als pg) = m + cW) ∧
    ((als.lookup pg.pageNumber).getD PageAlignment.left = PageAlignment.center →
      pageMinLeft (alignPage m cW als pg) - m
        = (m + cW) - pageMaxRight (alignPage m cW als pg)) ∧
    (∀ (packer : Packer) (assets : List Asset) (o : LayoutOptions), assets ≠ [] →
      calculatePageLayout packer assets o =
        combineStage o.combinePages (pageDimensions o).1 (pageDimensions o).2
          (alignStage o.margin ((pageDimensions o).1 - o.margin * 2) o.pageAlignments
            (prePages packer assets o))) := by
  obtain ⟨p, ps, hps⟩ := List.exists_cons_of_ne_nil hne
  have hml : pageMinLeft pg = listMinQ p.x (ps.map PhotoBox.x) := by
    unfold pageMinLeft
    rw [hps]
  have hmr : pageMaxRight pg = listMaxQ (p.x + p.width) (ps.map (fun q => q.x + q.width)) := by
    unfold pageMaxRight
    rw [hps]
  refine ⟨?_, ?_, ?_, ?_⟩
  · intro hal
    unfold alignPage
    rw [hps]
    dsimp only
    rw [if_pos hal]
  · intro hal
    unfold alignPage
    rw [hps]
    dsimp only
    rw [hal]
    rw [if_neg (by decide : ¬ (PageAlignment.right = PageAlignment.left))]
    rw [if_pos (rfl : PageAlignment.right = PageAlignment.right)]
    rw [← hps]
    rw [pageMaxRight_shift pg p ps _ hps]
    rw [hmr]
    ring
  · intro hal
    unfold alignPage
    rw [hps]
    dsimp only
    rw [hal]
    rw [if_neg (by decide : ¬ (PageAlignment.center = PageAlignment.left))]
    rw [if_neg (by decide : ¬ (PageAlignment.center = PageAlignment.right))]
    rw [if_pos (rfl : PageAlignment.center = PageAlignment.center)]
    rw [← hps]
    rw [pageMinLeft_shift pg p ps _ hps, pageMaxRight_shift pg p ps _ hps]
    rw [hml, hmr]
    ring
  · intro packer assets o hno
    unfold calculatePageLayout alignedPages
    rw [if_neg (by simpa using hno)]

/-- Witness for C5: centering the concrete two-box page `witAlignPage` inside
a margin-10, content-width-80 page leaves equal slack (15) on both sides. -/
theorem alignPage_alignment_spec_witness :
    pageMinLeft (alignPage 10 80 [(1, PageAlignment.center)] witAlignPage) - 10
      = (10 + 80) - pageMaxRight (alignPage 10 80 [(1, PageAlignment.center)] witAlignPage) :=
  (alignPage_alignment_spec 10 80 [(1, PageAlignment.center)] witAlignPage
    (by simp [witAlignPage])).2.2.1 (by decide)

/-- C3 counterexample: under exactly the packer assumptions the claim states
(`top ≥ 0`, `left ≥ 0`, `left + width ≤ rowWidth`) and with positive content
width and height, a pre-alignment photo box can still violate
`y + height ≤ pageHeight − margin`: a single box of height 81 on an 80-pixel
content area is placed whole (an oversized row is never split), ending at
`y + height = 91 > 90`. -/
theorem prePages_no_overflow_cex :
    (∀ it ∈ layoutItems tallPacker [assetBare] optsC3,
      0 ≤ it.2.top ∧ 0 ≤ it.2.left ∧
      it.2.left + it.2.width ≤ (pageDimensions optsC3).1 - optsC3.margin * 2) ∧
    0 < (pageDimensions optsC3).1 - optsC3.margin * 2 ∧
    0 < (pageDimensions optsC3).2 - optsC3.margin * 2 ∧
    ¬ (∀ pg ∈ prePages tallPacker [assetBare] optsC3, ∀ b ∈ pg.photos,
        b.y + b.height ≤ (pageDimensions optsC3).2 - optsC3.margin ∧
        b.x + b.width ≤ (pageDimensions optsC3).1 - optsC3.margin) := by
  refine ⟨?_, ?_, ?_, ?_⟩ <;>
    norm_num [layoutItems, tallPacker, optsC3, pageDimensions, truthyNum, prePages,
      paginate, pageStep, aspectRatios, resolveAspectRatio, naturalAspectRatio,
      numOr, assetBare, List.enum]

/-- C3 (amended): the pre-alignment no-overflow invariant holds once the
packer assumptions are extended by what the counterexample forces — every
packed box is no taller than the content height, and the packed strip starts
at top 0. -/
theorem prePages_no_overflow_amended (packer : Packer) (assets : List Asset)
    (o : LayoutOptions)
    (hcw : 0 < (pageDimensions o).1 - o.margin * 2)
    (hch : 0 < (pageDimensions o).2 - o.margin * 2)
    (hfirst : ∀ it ∈ (layoutItems packer assets o).head?, it.2.top = 0)
    (hb : ∀ it ∈ layoutItems packer assets o,
      boxOK ((pageDimensions o).1 - o.margin * 2) ((pageDimensions o).2 - o.margin * 2) it.2) :
    ∀ pg ∈ prePages packer assets o, ∀ b ∈ pg.photos,
      b.y + b.height ≤ (pageDimensions o).2 - o.margin ∧
      b.x + b.width ≤ (pageDimensions o).1 - o.margin := by
  intro pg hpg b hbmem
  have hpq : pg ∈ paginate (pageDimensions o).1 (pageDimensions o).2
      ((pageDimensions o).2 - o.margin * 2) o.margin (layoutItems packer assets o) := by
    unfold prePages at hpg
    exact hpg
  have h := paginate_bounded (pageDimensions o).1 (pageDimensions o).2
    ((pageDimensions o).2 - o.margin * 2) ((pageDimensions o).1 - o.margin * 2) o.margin
    (layoutItems packer assets o) hfirst hb pg hpq b hbmem
  exact ⟨by linarith [h.1], by linarith [h.2]⟩

/-- Witness for the amended C3 at a concrete in-bounds packer: the single
resulting photo box (y 10, height 30) respects both content-area edges of the
100×100 page with margin 10. -/
theorem prePages_no_overflow_amended_witness :
    ({ asset := assetBare, x := 10, y := 10, width := 10, height := 30 } : PhotoBox).y +
      ({ asset := assetBare, x := 10, y := 10, width := 10, height := 30 } : PhotoBox).height ≤
      (pageDimensions optsC3).2 - optsC3.margin ∧
    ({ asset := assetBare, x := 10, y := 10, width := 10, height := 30 } : PhotoBox).x +
      ({ asset := assetBare, x := 10, y := 10, width := 10, height := 30 } : PhotoBox).width ≤
      (pageDimensions optsC3).1 - optsC3.margin := by
  have h := prePages_no_overflow_amended goodPacker [assetBare] optsC3
    (by norm_num [pageDimensions, optsC3, truthyNum])
    (by norm_num [pageDimensions, optsC3, truthyNum])
    (by norm_num [layoutItems, goodPacker, optsC3, List.enum])
    (by norm_num [layoutItems, goodPacker, optsC3, boxOK, pageDimensions, truthyNum,
        List.enum])
  refine h
    { pageNumber := 1,
      photos := [{ asset := assetBare, x := 10, y := 10, width := 10, height := 30 }],
      width := 100, height := 100 } ?_
    { asset := assetBare, x := 10, y := 10, width := 10, height := 30 } ?_
  · norm_num [prePages, paginate, pageStep, layoutItems, goodPacker, optsC3,
      pageDimensions, truthyNum, aspectRatios, resolveAspectRatio,
      naturalAspectRatio, numOr, assetBare, List.enum]
  · simp

/-- C6 counterexample: an override value of `0` that is *present* in the map
is not used — the code tests the looked-up value for truthiness, not for
presence, so at this input the claim's priority order (override whenever
present) disagrees with `calculatePageLayout`'s resolution. -/
theorem resolveAspectRatio_presence_cex :
    resolveAspectRatioClaim (some [("a43", 0)]) assetFourThree = 0 ∧
    resolveAspectRatio (some [("a43", 0)]) assetFourThree = 4 / 3 ∧
    resolveAspectRatioClaim (some [("a43", 0)]) assetFourThree ≠
      resolveAspectRatio (some [("a43", 0)]) assetFourThree := by
  have h1 : resolveAspectRatioClaim (some [("a43", 0)]) assetFourThree = 0 := by
    norm_num [resolveAspectRatioClaim, assetFourThree, List.lookup]
  have h2 : resolveAspectRatio (some [("a43", 0)]) assetFourThree = 4 / 3 := by
    simp [resolveAspectRatio, naturalAspectRatio, numOr, assetFourThree, List.lookup]
  exact ⟨h1, h2, by rw [h1, h2]; norm_num⟩

/-- C6 (amended): the aspect ratio passed to the row packer is resolved as:
(1) the per-asset override when present *and nonzero*; (2) else the natural
width/height ratio with the two dimensions swapped under orientation "6",
each dimension replaced by 1 when absent or 0; (3) hence 1.0 when both pixel
dimensions are unknown — and the denominator used is never zero. -/
theorem resolveAspectRatio_amended (mm : List (String × ℚ)) (a : Asset) :
    (∀ r, mm.lookup a.id = some r → r ≠ 0 → resolveAspectRatio (some mm) a = r) ∧
    ((mm.lookup a.id = none ∨ mm.lookup a.id = some 0) →
      resolveAspectRatio (some mm) a = naturalAspectRatio a) ∧
    numOr (a.exifInfo.bind ExifInfo.exifImageWidth) 1 ≠ 0 ∧
    numOr (a.exifInfo.bind ExifInfo.exifImageHeight) 1 ≠ 0 ∧
    ((a.exifInfo.bind ExifInfo.exifImageWidth = none ∧
      a.exifInfo.bind ExifInfo.exifImageHeight = none) →
      naturalAspectRatio a = 1) ∧
    (a.exifInfo.bind ExifInfo.orientation = some "6" →
      naturalAspectRatio a = numOr (a.exifInfo.bind ExifInfo.exifImageHeight) 1 /
        numOr (a.exifInfo.bind ExifInfo.exifImageWidth) 1) ∧
    (a.exifInfo.bind ExifInfo.orientation ≠ some "6" →
      naturalAspectRatio a = numOr (a.exifInfo.bind ExifInfo.exifImageWidth) 1 /
        numOr (a.exifInfo.bind ExifInfo.exifImageHeight) 1) := by
  refine ⟨?_, ?_, ?_, ?_, ?_, ?_, ?_⟩
  · intro r hr hr0
    simp [resolveAspectRatio, hr, hr0]
  · intro h
    rcases h with h | h <;> simp [resolveAspectRatio, h]
  · unfold numOr
    cases hx : a.exifInfo.bind ExifInfo.exifImageWidth with
    | none => norm_num
    | some v => by_cases hv : v = 0 <;> simp [hv]
  · unfold numOr
    cases hx : a.exifInfo.bind ExifInfo.exifImageHeight with
    | none => norm_num
    | some v => by_cases hv : v = 0 <;> simp [hv]
  · intro h
    unfold naturalAspectRatio
    rw [h.1, h.2]
    split <;> norm_num [numOr]
  · intro h
    unfold naturalAspectRatio
    rw [if_pos h]
  · intro h
    unfold naturalAspectRatio
    rw [if_neg h]

/-- Witness for the amended C6: a present nonzero override (2) is used, a
present zero override falls back to the natural 4:3 ratio. -/
theorem resolveAspectRatio_amended_witness :
    resolveAspectRatio (some [("a43", 2)]) assetFourThree = 2 ∧
    resolveAspectRatio (some [("a43", 0)]) assetFourThree
      = naturalAspectRatio assetFourThree := by
  constructor
  · exact (resolveAspectRatio_amended [("a43", 2)] assetFourThree).1 2
      (by norm_num [assetFourThree, List.lookup]) (by norm_num)
  · exact (resolveAspectRatio_amended [("a43", 0)] assetFourThree).2.1
      (Or.inr (by norm_num [assetFourThree, List.lookup]))

/-- C9: a zero (non-truthy) override entry for an asset is ignored and the
natural rotation-corrected ratio is used instead, because the override is
tested for truthiness rather than presence — and consequently a resolution
that yields 0 can only come from the natural ratio, never from an override. -/
theorem resolveAspectRatio_zero_override (mm : List (String × ℚ)) (a : Asset) :
    (mm.lookup a.id = some 0 → resolveAspectRatio (some mm) a = naturalAspectRatio a) ∧
    (resolveAspectRatio (some mm) a = 0 → naturalAspectRatio a = 0) := by
  constructor
  · intro h
    simp [resolveAspectRatio, h]
  · intro h
    unfold resolveAspectRatio at h
    cases hx : (some mm).bind (fun m => m.lookup a.id) with
    | none =>
      rw [hx] at h
      exact h
    | some r =>
      rw [hx] at h
      dsimp only at h
      by_cases hr : r = 0
      · rw [if_pos hr] at h
        exact h
      · rw [if_neg hr] at h
        exact absurd h hr

/-- Witness for C9: the zero override on `assetBare` is ignored and the
natural ratio is used. -/
theorem resolveAspectRatio_zero_override_witness :
    resolveAspectRatio (some [("a0", 0)]) assetBare = naturalAspectRatio assetBare :=
  (resolveAspectRatio_zero_override [("a0", 0)] assetBare).1
    (by norm_num [assetBare, List.lookup])

/-- C10: when `pageSize` is CUSTOM and `customWidth` or `customHeight` is
absent or 0 (falsy), `calculatePageLayout` silently falls back to A4 portrait:
the selected page dimensions are `(mmToPixels 210, mmToPixels 297)` and every
page before spread combination carries exactly those dimensions, regardless of
the other custom value. -/
theorem calculatePageLayout_custom_fallback (packer : Packer) (assets : List Asset)
    (o : LayoutOptions)
    (hps : o.pageSize = PageSizeOpt.CUSTOM)
    (hcd : truthyNum o.customWidth = false ∨ truthyNum o.customHeight = false) :
    pageDimensions o = (mmToPixels 210, mmToPixels 297) ∧
    ∀ pg ∈ alignedPages packer assets o,
      pg.width = mmToPixels 210 ∧ pg.height = mmToPixels 297 := by
  have hpd : pageDimensions o = (mmToPixels 210, mmToPixels 297) := by
    unfold pageDimensions
    rw [if_neg, if_neg]
    · rfl
    · simp [hps]
    · rcases hcd with h | h <;> simp [h]
  refine ⟨hpd, ?_⟩
  have hpre : ∀ pg ∈ prePages packer assets o,
      pg.width = mmToPixels 210 ∧ pg.height = mmToPixels 297 := by
    unfold prePages
    rw [hpd]
    exact paginate_dims (mmToPixels 210) (mmToPixels 297) _ _ _
  have := alignStage_dims o.margin ((pageDimensions o).1 - o.margin * 2)
    o.pageAlignments (prePages packer assets o) (mmToPixels 210) (mmToPixels 297) hpre
  intro pg hpg
  apply this
  unfold alignedPages at hpg
  exact hpg

/-- Witness for C10 at `optsC10` (CUSTOM with `customWidth = 0`): the fallback
dimensions are A4 portrait, concretely 2480×3508 pixels. -/
theorem calculatePageLayout_custom_fallback_witness :
    pageDimensions optsC10 = (mmToPixels 210, mmToPixels 297) ∧
    mmToPixels 210 = 2480 ∧ mmToPixels 297 = 3508 := by
  refine ⟨(calculatePageLayout_custom_fallback goodPacker [] optsC10 rfl ?_).1, ?_, ?_⟩
  · left
    simp [truthyNum, optsC10]
  · norm_num [mmToPixels, round_eq]
  · norm_num [mmToPixels, round_eq]

/-- C7 counterexample: with an out-of-bounds page width (500), the layout is
indeed computed from the clamped value (1000), but nothing at all is persisted
— the save effect returns early — so the persisted value is *not* the clamped
value, contradicting the claim's persistence half. -/
theorem gridConfig_persist_cex :
    ¬ isPageWidthValid badSettings ∧
    validPageWidth badSettings = 1000 ∧
    (gridLayoutOptions badSettings false []).customWidth = some 1000 ∧
    (savedAlbumConfig badSettings).map GridSettings.pageWidth ≠
      some (validPageWidth badSettings) ∧
    savedAlbumConfig badSettings = none := by
  have hnv : ¬ isPageWidthValid badSettings := by
    norm_num [isPageWidthValid, badSettings]
  have hv : validPageWidth badSettings = 1000 := by
    rw [validPageWidth, if_neg hnv]
    norm_num [badSettings]
  have hsave : savedAlbumConfig badSettings = none := by
    rw [savedAlbumConfig, if_neg]
    intro hall
    exact hnv hall.1
  refine ⟨hnv, hv, ?_, ?_, hsave⟩
  · show some (validPageWidth badSettings) = some 1000
    rw [hv]
  · rw [hsave, hv]
    simp

/-- C7 (amended): an out-of-bounds page width, page height, margin, row
height, or spacing is clamped into its bounds for the layout computation
(never rejected), and `gridLayoutOptions` feeds exactly the clamped values to
`calculatePageLayout`; persistence, however, is skipped entirely while any
value is out of bounds — the stored configuration only ever receives values
that are all in bounds, and those coincide with their clamped forms. -/
theorem gridConfig_clamping_amended (s : GridSettings) :
    (¬ isPageWidthValid s → validPageWidth s = max 1000 (min 10000 s.pageWidth)) ∧
    (¬ isPageHeightValid s → validPageHeight s = max 1000 (min 10000 s.pageHeight)) ∧
    (¬ isMarginValid s → validMargin s = max 0 (min (validPageWidth s / 2) s.margin)) ∧
    (¬ isRowHeightValid s →
      validRowHeight s = max 300 (min (validPageHeight s) s.rowHeight)) ∧
    (¬ isSpacingValid s → validSpacing s = max 0 (min 100 s.spacing)) ∧
    (1000 ≤ validPageWidth s ∧ validPageWidth s ≤ 10000) ∧
    (1000 ≤ validPageHeight s ∧ validPageHeight s ≤ 10000) ∧
    (0 ≤ validSpacing s ∧ validSpacing s ≤ 100) ∧
    (∀ (b : Bool) (r : List (String × ℚ)),
      (gridLayoutOptions s b r).customWidth = some (validPageWidth s) ∧
      (gridLayoutOptions s b r).customHeight = some (validPageHeight s) ∧
      (gridLayoutOptions s b r).margin = validMargin s ∧
      (gridLayoutOptions s b r).rowHeight = validRowHeight s ∧
      (gridLayoutOptions s b r).spacing = validSpacing s) ∧
    (savedAlbumConfig s = none ↔
      ¬ (isPageWidthValid s ∧ isPageHeightValid s ∧ isMarginValid s ∧
          isRowHeightValid s ∧ isSpacingValid s)) ∧
    (∀ c, savedAlbumConfig s = some c →
      c.pageWidth = validPageWidth s ∧ c.pageHeight = validPageHeight s ∧
      c.margin = validMargin s ∧ c.rowHeight = validRowHeight s ∧
      c.spacing = validSpacing s) := by
  refine ⟨fun h => by rw [validPageWidth, if_neg h],
    fun h => by rw [validPageHeight, if_neg h],
    fun h => by rw [validMargin, if_neg h],
    fun h => by rw [validRowHeight, if_neg h],
    fun h => by rw [validSpacing, if_neg h], ?_, ?_, ?_, ?_, ?_, ?_⟩
  · unfold validPageWidth
    split
    · rename_i h
      exact h
    · constructor
      · exact le_max_left _ _
      · exact max_le (by norm_num) (min_le_left _ _)
  · unfold validPageHeight
    split
    · rename_i h
      exact h
    · constructor
      · exact le_max_left _ _
      · exact max_le (by norm_num) (min_le_left _ _)
  · unfold validSpacing
    split
    · rename_i h
      exact h
    · constructor
      · exact le_max_left _ _
      · exact max_le (by norm_num) (min_le_left _ _)
  · intro b r
    exact ⟨rfl, rfl, rfl, rfl, rfl⟩
  · unfold savedAlbumConfig
    by_cases hall : isPageWidthValid s ∧ isPageHeightValid s ∧ isMarginValid s ∧
        isRowHeightValid s ∧ isSpacingValid s
    · rw [if_pos hall]
      simp [hall]
    · rw [if_neg hall]
      simp [hall]
  · intro c hc
    unfold savedAlbumConfig at hc
    by_cases hall : isPageWidthValid s ∧ isPageHeightValid s ∧ isMarginValid s ∧
        isRowHeightValid s ∧ isSpacingValid s
    · rw [if_pos hall] at hc
      obtain rfl : s = c := by injection hc
      refine ⟨?_, ?_, ?_, ?_, ?_⟩
      · rw [validPageWidth, if_pos hall.1]
      · rw [validPageHeight, if_pos hall.2.1]
      · rw [validMargin, if_pos hall.2.2.1]
      · rw [validRowHeight, if_pos hall.2.2.2.1]
      · rw [validSpacing, if_pos hall.2.2.2.2]
    · rw [if_neg hall] at hc
      exact absurd hc (by simp)

/-- Witness for the amended C7: at `badSettings` the invalid width clamps to
1000 (inside its bounds), and at a fully valid configuration the raw values are
what is persisted. -/
theorem gridConfig_clamping_amended_witness :
    validPageWidth badSettings = max 1000 (min 10000 (500 : ℚ)) ∧
    (1000 ≤ validPageWidth badSettings ∧ validPageWidth badSettings ≤ 10000) := by
  have h := gridConfig_clamping_amended badSettings
  refine ⟨?_, h.2.2.2.2.2.1⟩
  have h1 := h.1 (by norm_num [isPageWidthValid, badSettings])
  simpa [badSettings] using h1

/-- Witness for C2: on the concrete `witItems` the instrumented paginator
produces two pages, and the second page's first box sits at `y = margin` with
`50 + 40 - 0 > 80`, i.e. it could not have fit on the first page. -/
theorem paginate_break_properties_witness :
    witPageTwo.1.photos ≠ [] ∧
    ({ asset := assetBare, x := 10, y := 10, width := 40, height := 40 } : PhotoBox).y = 10 ∧
    (80 : ℚ) < witPageTwo.2 +
      ({ asset := assetBare, x := 10, y := 10, width := 40, height := 40 } : PhotoBox).height -
      witPageOne.2 := by
  have h := paginate_break_properties 100 100 80 10 witItems
  have heval : paginateAux 100 100 80 10 witItems = [witPageOne, witPageTwo] := by
    norm_num [paginateAux, pageStepAux, witItems, witPageOne, witPageTwo,
      assetWide, assetBare]
  constructor
  · exact h.2.2.1 witPageTwo (by rw [heval]; simp)
  · have hch := h.2.2.2
    rw [heval] at hch
    have hrel := (List.chain'_cons.mp hch).1
    exact hrel _ (by simp [witPageTwo])

end ImmichBook
